import Mathlib

/-!
Verification of the blueblazer drink-mixing module.

The source file src/blueblazer/blueblazer.py is a Python 2 module.  Its
numeric core works on Python floats; we embed the arithmetic over the
rationals, with Python 2 rounding (round half away from zero at a given
number of decimal places) made explicit.  Fallible code is embedded with
Option / Except: a Python exception is the none / error case.  The global
Mersenne Twister generator is embedded as an explicit stream of draws in
the unit interval together with a position, threaded through the
functions that consume randomness.
-/

/-- Python 2 round(x) to an integer: half away from zero. -/
def pyround_int (x : ℚ) : ℤ :=
  if 0 ≤ x then Int.floor (x + 1 / 2) else -Int.floor (-x + 1 / 2)

/-- Python 2 round(x, n): round to n decimal places, half away from zero. -/
def pyround (x : ℚ) (n : ℕ) : ℚ :=
  (pyround_int (x * 10 ^ n) : ℚ) / 10 ^ n

lemma pyround_int_intCast (z : ℤ) : pyround_int (z : ℚ) = z := by
  unfold pyround_int
  have h12 : Int.floor ((1 : ℚ) / 2) = 0 := by
    rw [Int.floor_eq_zero_iff]
    constructor <;> norm_num
  by_cases hz : 0 ≤ (z : ℚ)
  · rw [if_pos hz, Int.floor_int_add, h12]
    omega
  · rw [if_neg hz]
    have : -(z : ℚ) = ((-z : ℤ) : ℚ) := by push_cast; ring
    rw [this, Int.floor_int_add, h12]
    ring

lemma pyround_idem (x : ℚ) (n : ℕ) : pyround (pyround x n) n = pyround x n := by
  have hpow : ((10 : ℚ) ^ n) ≠ 0 := by positivity
  unfold pyround
  rw [div_mul_cancel₀ _ hpow, pyround_int_intCast]

lemma pyround_zero (n : ℕ) : pyround 0 n = 0 := by
  have h : pyround_int ((0 : ℚ)) = 0 := by
    have := pyround_int_intCast 0
    simpa using this
  unfold pyround
  rw [zero_mul, h]
  simp

lemma pyround_nonneg (x : ℚ) (n : ℕ) (h : 0 ≤ x) : 0 ≤ pyround x n := by
  unfold pyround pyround_int
  have hx : 0 ≤ x * 10 ^ n := by positivity
  rw [if_pos hx]
  apply div_nonneg _ (by positivity)
  have : (0 : ℤ) ≤ Int.floor (x * 10 ^ n + 1 / 2) :=
    Int.le_floor.mpr (by push_cast; linarith)
  exact_mod_cast this

lemma pyround_le_one (x : ℚ) (n : ℕ) (h : x < 1) : pyround x n ≤ 1 := by
  unfold pyround pyround_int
  have hpow : (0 : ℚ) < 10 ^ n := by positivity
  by_cases hx : 0 ≤ x * 10 ^ n
  · rw [if_pos hx, div_le_one hpow]
    have h1 : x * 10 ^ n < 10 ^ n := by
      have := mul_lt_mul_of_pos_right h hpow
      linarith
    have h2 : Int.floor (x * 10 ^ n + 1 / 2) < (10 : ℤ) ^ n + 1 := by
      apply Int.floor_lt.mpr
      push_cast
      linarith
    have h3 : Int.floor (x * 10 ^ n + 1 / 2) ≤ (10 : ℤ) ^ n := by omega
    calc ((Int.floor (x * 10 ^ n + 1 / 2) : ℤ) : ℚ) ≤ (((10 : ℤ) ^ n : ℤ) : ℚ) := by
          exact_mod_cast h3
      _ = 10 ^ n := by push_cast; ring
  · rw [if_neg hx]
    have hneg : 0 < -(x * 10 ^ n) := by linarith [not_le.mp hx]
    have hfl : (0 : ℤ) ≤ Int.floor (-(x * 10 ^ n) + 1 / 2) :=
      Int.le_floor.mpr (by push_cast; linarith)
    have : ((-Int.floor (-(x * 10 ^ n) + 1 / 2) : ℤ) : ℚ) ≤ 0 := by
      have : ((Int.floor (-(x * 10 ^ n) + 1 / 2) : ℤ) : ℚ) ≥ 0 := by exact_mod_cast hfl
      push_cast
      linarith
    have hdiv : ((-Int.floor (-(x * 10 ^ n) + 1 / 2) : ℤ) : ℚ) / 10 ^ n ≤ 0 :=
      div_nonpos_of_nonpos_of_nonneg this hpow.le
    linarith

/-- Embedding of the loop body of combine (blueblazer.py lines 39-58).
State is the running pair (final_amount, final_percentage).  A negative
running amount skips the concentration update (the continue branch); a
zero running amount is a ZeroDivisionError, embedded as none. -/
def combineLoop : ℚ → ℚ → List (ℚ × ℚ) → Option (ℚ × ℚ)
  | fa, fp, [] => some (fa, fp)
  | fa, fp, (v, c) :: rest =>
    if fa + v < 0 then combineLoop (fa + v) fp rest
    else if fa + v = 0 then none
    else combineLoop (fa + v) (pyround ((fa * fp + v * c) / (fa + v)) 3) rest

/-- Embedding of combine (blueblazer.py lines 21-59): fold the loop from
the initial state (0, 0). -/
def combine (l : List (ℚ × ℚ))  : Option (ℚ × ℚ) :=
  combineLoop 0 0 l

/-- One step of the blend calculation as worded by the spec: add the
volumes, and re-weight the running concentration against the next
component, rounding to 3 decimal places. -/
def specStep (acc pc : ℚ × ℚ) : ℚ × ℚ :=
  (acc.1 + pc.1, pyround ((acc.1 * acc.2 + pc.1 * pc.2) / (acc.1 + pc.1)) 3)

/-- The blend calculator as worded by the spec (section 4.1): the
incrementally recomputed, rounded weighted mean, total and fallthrough
value (0, 0) for the empty sequence.  Used to compare combine against
the spec sentence of claim C1. -/
def spec_combine (l : List (ℚ × ℚ)) : ℚ × ℚ :=
  l.foldl specStep (0, 0)

lemma combineLoop_fst : ∀ (l : List (ℚ × ℚ)) (fa fp : ℚ) (r : ℚ × ℚ),
    combineLoop fa fp l = some r → r.1 = fa + (l.map Prod.fst).sum := by
  intro l
  induction l with
  | nil =>
    intro fa fp r h
    simp only [combineLoop, Option.some.injEq] at h
    rw [← h]
    simp
  | cons p rest ih =>
    intro fa fp r h
    obtain ⟨v, c⟩ := p
    simp only [combineLoop] at h
    split_ifs at h with h1 h2
    · have := ih _ _ _ h
      rw [this]
      simp only [List.map_cons, List.sum_cons]
      ring
    · have := ih _ _ _ h
      rw [this]
      simp only [List.map_cons, List.sum_cons]
      ring

lemma combineLoop_eq_spec : ∀ (l : List (ℚ × ℚ)) (fa fp : ℚ), 0 < fa →
    (∀ q ∈ l, 0 ≤ q.1) →
    combineLoop fa fp l = some (l.foldl specStep (fa, fp)) := by
  intro l
  induction l with
  | nil => intro fa fp _ _; simp [combineLoop]
  | cons p rest ih =>
    intro fa fp hfa hnn
    obtain ⟨v, c⟩ := p
    have hv : 0 ≤ v := hnn (v, c) (List.mem_cons_self _ _)
    have h2 : 0 < fa + v := by linarith
    simp only [combineLoop, List.foldl_cons]
    rw [if_neg (not_lt.mpr h2.le), if_neg h2.ne']
    rw [ih _ _ h2 (fun q hq => hnn q (List.mem_cons_of_mem _ hq))]
    rfl

lemma spec_foldl_fst : ∀ (l : List (ℚ × ℚ)) (a p : ℚ),
    (l.foldl specStep (a, p)).1 = a + (l.map Prod.fst).sum := by
  intro l
  induction l with
  | nil => intro a p; simp
  | cons q rest ih =>
    intro a p
    simp only [List.foldl_cons, List.map_cons, List.sum_cons]
    rw [ih]
    simp only [specStep]
    ring

lemma combineLoop_snd_fix : ∀ (l : List (ℚ × ℚ)) (fa fp t c : ℚ),
    fp = pyround fp 3 → combineLoop fa fp l = some (t, c) → c = pyround c 3 := by
  intro l
  induction l with
  | nil =>
    intro fa fp t c hfp h
    simp only [combineLoop, Option.some.injEq, Prod.mk.injEq] at h
    rw [← h.2]
    exact hfp
  | cons p rest ih =>
    intro fa fp t c hfp h
    obtain ⟨v, cc⟩ := p
    simp only [combineLoop] at h
    split_ifs at h with h1 h2
    · exact ih _ _ _ _ hfp h
    · exact ih _ _ _ _ (pyround_idem _ 3).symm h

/-- Claim C1 (corrected): with non-negative volumes and a positive first
volume (so every running total stays positive), combine returns the
incrementally recomputed rounded weighted mean of the spec, whose first
component is the plain sum of the volumes; the empty sequence gives
(0, 0); the IBA Bloody Mary example gives (159, 0.113). -/
theorem c1_theorem :
    (∀ l : List (ℚ × ℚ), (∀ q ∈ l, 0 ≤ q.1) → (∀ q ∈ l.take 1, 0 < q.1) →
      combine l = some (spec_combine l) ∧
        (spec_combine l).1 = (l.map Prod.fst).sum)
    ∧ combine ([] : List (ℚ × ℚ)) = some (0, 0)
    ∧ combine [(45, 2/5), (90, 0), (15, 0), (9, 0)] = some (159, 113/1000) := by
  refine ⟨?_, by norm_num [combine, combineLoop],
    by norm_num [combine, combineLoop, pyround, pyround_int]⟩
  intro l hnn hpos
  constructor
  · cases l with
    | nil => simp [combine, combineLoop, spec_combine]
    | cons p rest =>
      obtain ⟨v, c⟩ := p
      have hv : 0 < v := hpos (v, c) (by simp)
      show combineLoop 0 0 ((v, c) :: rest) = _
      simp only [combineLoop]
      rw [if_neg (by linarith), if_neg (by linarith)]
      rw [combineLoop_eq_spec rest _ _ (by linarith)
        (fun q hq => hnn q (List.mem_cons_of_mem _ hq))]
      rfl
  · rw [spec_combine, spec_foldl_fst]
    ring

/-- Claim C1 counterexample: non-negative volumes and a positive grand
total are not enough; a leading zero-volume component makes the first
running total zero and combine raises ZeroDivisionError (none) instead
of returning a pair. -/
theorem c1_counterexample :
    combine [((0 : ℚ), 1/2), ((10 : ℚ), 2/5)] = none
    ∧ (∀ q ∈ ([((0 : ℚ), 1/2), ((10 : ℚ), 2/5)] : List (ℚ × ℚ)), 0 ≤ q.1)
    ∧ 0 < (([((0 : ℚ), 1/2), ((10 : ℚ), 2/5)] : List (ℚ × ℚ)).map Prod.fst).sum := by
  refine ⟨by norm_num [combine, combineLoop], by norm_num, by norm_num⟩

/-- Claim C1 witness: the amended statement applied to the concrete
one-component list [(10, 0.4)]. -/
theorem c1_witness :
    (∀ q ∈ ([((10 : ℚ), 2/5)] : List (ℚ × ℚ)), 0 ≤ q.1)
    ∧ (∀ q ∈ ([((10 : ℚ), 2/5)] : List (ℚ × ℚ)).take 1, 0 < q.1)
    ∧ (combine [((10 : ℚ), 2/5)] = some (spec_combine [((10 : ℚ), 2/5)])
        ∧ (spec_combine [((10 : ℚ), 2/5)]).1
            = (([((10 : ℚ), 2/5)] : List (ℚ × ℚ)).map Prod.fst).sum) :=
  ⟨by norm_num, by norm_num,
    c1_theorem.1 [((10 : ℚ), 2/5)] (by norm_num) (by norm_num)⟩

/-- Claim C2 (corrected): the documented instance holds, blending
[(10, 0.4), (10, 0)] in either order yields (20, 0.2), and the total
volume is invariant under any reordering; but the rounded concentration
is in general order dependent, because each step rounds the running
concentration. -/
theorem c2_theorem :
    (combine [(10, 2/5), (10, 0)] = some (20, 1/5)
      ∧ combine [(10, 0), (10, 2/5)] = some (20, 1/5))
    ∧ ∀ (l1 l2 : List (ℚ × ℚ)) (r1 r2 : ℚ × ℚ), l1.Perm l2 →
        combine l1 = some r1 → combine l2 = some r2 → r1.1 = r2.1 := by
  refine ⟨⟨by norm_num [combine, combineLoop, pyround, pyround_int],
    by norm_num [combine, combineLoop, pyround, pyround_int]⟩, ?_⟩
  intro l1 l2 r1 r2 hp h1 h2
  have e1 := combineLoop_fst l1 0 0 r1 h1
  have e2 := combineLoop_fst l2 0 0 r2 h2
  rw [e1, e2, (hp.map Prod.fst).sum_eq]

/-- Claim C2 counterexample: reordering can change the rounded
concentration; the pair list [(10, 0.0106), (10, 0.01238)] gives
(20, 0.012) in this order and (20, 0.011) reversed. -/
theorem c2_counterexample :
    combine [(10, 53/5000), (10, 619/50000)] = some (20, 3/250)
    ∧ combine [(10, 619/50000), (10, 53/5000)] = some (20, 11/1000)
    ∧ List.Perm [((10 : ℚ), (53 : ℚ)/5000), (10, 619/50000)]
        [((10 : ℚ), (619 : ℚ)/50000), (10, 53/5000)]
    ∧ (((20 : ℚ), (3 : ℚ)/250) : ℚ × ℚ) ≠ ((20 : ℚ), (11 : ℚ)/1000) := by
  refine ⟨by norm_num [combine, combineLoop, pyround, pyround_int],
    by norm_num [combine, combineLoop, pyround, pyround_int],
    List.Perm.swap _ _ _, by norm_num [Prod.mk.injEq]⟩

/-- Claim C2 witness: the permutation part of the amended statement at a
concrete reordering of [(10, 0.4), (5, 0)]. -/
theorem c2_witness :
    List.Perm [((10 : ℚ), 2/5), ((5 : ℚ), 0)] [((5 : ℚ), 0), ((10 : ℚ), 2/5)]
    ∧ combine [((10 : ℚ), 2/5), ((5 : ℚ), 0)] = some (15, 267/1000)
    ∧ combine [((5 : ℚ), 0), ((10 : ℚ), 2/5)] = some (15, 267/1000)
    ∧ (((15 : ℚ), (267 : ℚ)/1000) : ℚ × ℚ).1 = (((15 : ℚ), (267 : ℚ)/1000) : ℚ × ℚ).1 :=
  ⟨List.Perm.swap _ _ _,
    by norm_num [combine, combineLoop, pyround, pyround_int],
    by norm_num [combine, combineLoop, pyround, pyround_int],
    c2_theorem.2 [((10 : ℚ), 2/5), ((5 : ℚ), 0)] [((5 : ℚ), 0), ((10 : ℚ), 2/5)]
      ((15 : ℚ), (267 : ℚ)/1000) ((15 : ℚ), (267 : ℚ)/1000)
      (List.Perm.swap _ _ _)
      (by norm_num [combine, combineLoop, pyround, pyround_int])
      (by norm_num [combine, combineLoop, pyround, pyround_int])⟩

/-- Claim C5 (confirmed): when adding a component makes the running total
negative, the loop skips only the concentration update while still
accumulating the volume; and whenever combine returns, the returned
total volume is the plain sum of all input volumes. -/
theorem c5_theorem :
    (∀ (fa fp v c : ℚ) (rest : List (ℚ × ℚ)), fa + v < 0 →
      combineLoop fa fp ((v, c) :: rest) = combineLoop (fa + v) fp rest)
    ∧ ∀ (l : List (ℚ × ℚ)) (r : ℚ × ℚ), combine l = some r →
        r.1 = (l.map Prod.fst).sum := by
  constructor
  · intro fa fp v c rest h
    simp only [combineLoop]
    rw [if_pos h]
  · intro l r h
    simpa using combineLoop_fst l 0 0 r h

/-- Claim C5 witness: the skip step at state (0, 0) with component
(-5, 0.5), and the total-volume equation at the list [(2, 0.5)]. -/
theorem c5_witness :
    ((0 : ℚ) + (-5) < 0
      ∧ combineLoop 0 0 [((-5 : ℚ), 1/2)] = combineLoop ((0 : ℚ) + (-5)) 0 [])
    ∧ (combine [((2 : ℚ), 1/2)] = some (2, 1/2)
      ∧ (((2 : ℚ), (1 : ℚ)/2) : ℚ × ℚ).1
          = (([((2 : ℚ), 1/2)] : List (ℚ × ℚ)).map Prod.fst).sum) :=
  ⟨⟨by norm_num, c5_theorem.1 0 0 (-5) (1/2) [] (by norm_num)⟩,
    ⟨by norm_num [combine, combineLoop, pyround, pyround_int],
      c5_theorem.2 [((2 : ℚ), 1/2)] ((2 : ℚ), 1/2)
        (by norm_num [combine, combineLoop, pyround, pyround_int])⟩⟩

/-- Claim C6 (corrected): for every output (t, c) of combine with t
positive, re-running combine on [(t, c), (0, 0)] returns (t, c)
unchanged; the output (0, 0) of the empty sequence is excluded, since
re-running on it divides by zero. -/
theorem c6_theorem : ∀ (l : List (ℚ × ℚ)) (t c : ℚ),
    combine l = some (t, c) → 0 < t → combine [(t, c), (0, 0)] = some (t, c) := by
  intro l t c h ht
  have hc : c = pyround c 3 := combineLoop_snd_fix l 0 0 t c (pyround_zero 3).symm h
  show combineLoop 0 0 [(t, c), (0, 0)] = some (t, c)
  simp only [combineLoop, zero_add, add_zero, zero_mul, mul_zero]
  rw [if_neg (not_lt.mpr ht.le), if_neg ht.ne']
  rw [mul_div_cancel_left₀ _ ht.ne', ← hc]
  rw [if_neg (not_lt.mpr ht.le), if_neg ht.ne']
  rw [mul_div_cancel_left₀ _ ht.ne', ← hc]

/-- Claim C6 counterexample: the claim fails on the output of the empty
sequence; combine returns (0, 0) there, and re-running combine on
[(0, 0), (0, 0)] raises ZeroDivisionError (none) instead of returning
(0, 0). -/
theorem c6_counterexample :
    combine ([] : List (ℚ × ℚ)) = some (0, 0)
    ∧ combine [((0 : ℚ), (0 : ℚ)), (0, 0)] = none := by
  refine ⟨by norm_num [combine, combineLoop, pyround, pyround_int],
    by norm_num [combine, combineLoop]⟩

/-- Claim C6 witness: the amended statement applied to the output
(10, 0.4) of combine on [(10, 0.4)]. -/
theorem c6_witness :
    combine [((10 : ℚ), 2/5)] = some (10, 2/5)
    ∧ (0 : ℚ) < 10
    ∧ combine [((10 : ℚ), (2 : ℚ)/5), (0, 0)] = some (10, 2/5) :=
  ⟨by norm_num [combine, combineLoop, pyround, pyround_int], by norm_num,
    c6_theorem [((10 : ℚ), 2/5)] 10 (2/5)
      (by norm_num [combine, combineLoop, pyround, pyround_int]) (by norm_num)⟩

/-- Claim C10 (confirmed): the guard before the division only skips
strictly negative running totals, so a running total of exactly zero
divides by zero: combine on the single component (0, c) raises for every
concentration c, and so does a list whose volumes cancel to zero. -/
theorem c10_theorem :
    (∀ c : ℚ, combine [(0, c)] = none)
    ∧ combine [((10 : ℚ), 1/2), ((-10 : ℚ), 0)] = none := by
  constructor
  · intro c
    show combineLoop 0 0 [(0, c)] = none
    simp only [combineLoop]
    norm_num
  · norm_num [combine, combineLoop, pyround, pyround_int]

/-- State of the process-wide pseudo-random generator: a stream of draws
in the unit interval and a position.  random.random() reads the draw at
the current position and advances it. -/
structure RState where
  stream : ℕ → ℚ
  pos : ℕ

/-- Modelled from the spec: the values produced by the shared Mersenne
Twister source after random.seed(s), which lives in the Python standard
library and is not part of src/.  The model is pinned at the two seeds
used by the module doctests, with values chosen to reproduce the
documented outputs (see the seedStream_doc lemmas below); all other
seeds get an arbitrary stream in the unit interval. -/
def seedStream (s k : ℕ) : ℚ :=
  if s = 12345 then
    (if k = 0 then 21/100 else if k = 1 then 1/2 else if k = 2 then 3/10 else 1/100)
  else if s = 121412 then
    (if k = 0 then 1265/10000 else if k = 1 then 5433/8735 else 1/100)
  else (((s + k) % 7 : ℕ) : ℚ) / 10 + 1/100

/-- Embedding of the Python if starting_seed: random.seed(starting_seed)
idiom: a falsy seed (none, or the number 0) leaves the generator state
untouched; a non-zero seed resets it. -/
def applySeed (seed : Option ℕ) (st : RState) : RState :=
  match seed with
  | none => st
  | some s => if s = 0 then st else ⟨seedStream s, 0⟩

/-- First draw of one random_ratio iteration: round(random.random(), r). -/
def ratio_first (r : ℕ) (st : RState) : ℚ := pyround (st.stream st.pos) r

/-- Second draw: round(random.uniform(first, 1.0), r), with
uniform(a, b) = a + (b - a) * random(). -/
def ratio_second (r : ℕ) (st : RState) : ℚ :=
  pyround (ratio_first r st + (1 - ratio_first r st) * st.stream (st.pos + 1)) r

/-- Derived third part: round(1.0 - second - first, r). -/
def ratio_third (r : ℕ) (st : RState) : ℚ :=
  pyround (1 - ratio_second r st - ratio_first r st) r

/-- Embedding of the while loop of random_ratio (blueblazer.py lines
130-138), with explicit fuel: each iteration consumes two draws, rejects
a negative third part, and accepts when the rounded total is exactly 1. -/
def randomRatioLoop (r : ℕ) : ℕ → RState → Option (ℚ × ℚ × ℚ) × RState
  | 0, st => (none, st)
  | Nat.succ fuel, st =>
    if ratio_third r st < 0 then randomRatioLoop r fuel ⟨st.stream, st.pos + 2⟩
    else if pyround (ratio_first r st + ratio_second r st + ratio_third r st) r = 1 then
      (some (ratio_first r st, ratio_second r st, ratio_third r st), ⟨st.stream, st.pos + 2⟩)
    else randomRatioLoop r fuel ⟨st.stream, st.pos + 2⟩

/-- Python sorted(triple, reverse=True): stable descending sort. -/
def sort_desc (l : List ℚ) : List ℚ := List.insertionSort (fun a b : ℚ => b ≤ a) l

/-- Embedding of random_ratio (blueblazer.py lines 115-139): optionally
reseed, run the rejection loop, and return the triple sorted descending.
The none value means the loop did not accept within the given fuel. -/
def random_ratio (rounding : ℕ) (starting_seed : Option ℕ) (st : RState) (fuel : ℕ) :
    Option (List ℚ) × RState :=
  let st1 := applySeed starting_seed st
  let res := randomRatioLoop rounding fuel st1
  (Option.map (fun x : ℚ × ℚ × ℚ => sort_desc [x.1, x.2.1, x.2.2]) res.1, res.2)

instance : IsTotal ℚ (fun a b : ℚ => b ≤ a) := ⟨fun a b => le_total b a⟩

instance : IsTrans ℚ (fun a b : ℚ => b ≤ a) := ⟨fun _ _ _ h1 h2 => le_trans h2 h1⟩

/-- Validation of the modelled stream: at seed 121412 with the default
rounding it reproduces the doctest output [0.7, 0.2, 0.1]. -/
lemma seedStream_doc_r1 :
    (random_ratio 1 (some 121412) ⟨fun _ => 0, 0⟩ 1).1 = some [7/10, 2/10, 1/10] := by
  norm_num [random_ratio, randomRatioLoop, applySeed, ratio_first, ratio_second,
    ratio_third, seedStream, pyround, pyround_int, sort_desc, List.insertionSort,
    List.orderedInsert]

/-- Validation of the modelled stream: at seed 121412 with rounding 4 it
reproduces the doctest output [0.6698, 0.2037, 0.1265]. -/
lemma seedStream_doc_r4 :
    (random_ratio 4 (some 121412) ⟨fun _ => 0, 0⟩ 1).1
      = some [6698/10000, 2037/10000, 1265/10000] := by
  norm_num [random_ratio, randomRatioLoop, applySeed, ratio_first, ratio_second,
    ratio_third, seedStream, pyround, pyround_int, sort_desc, List.insertionSort,
    List.orderedInsert]

lemma seedStream_bounds (s : ℕ) : ∀ k, 0 ≤ seedStream s k ∧ seedStream s k < 1 := by
  intro k
  unfold seedStream
  split_ifs
  all_goals try { constructor <;> norm_num }
  constructor
  · positivity
  · have hm : ((s + k) % 7 : ℕ) < 7 := Nat.mod_lt _ (by norm_num)
    have hc : (((s + k) % 7 : ℕ) : ℚ) ≤ 6 := by exact_mod_cast Nat.lt_succ_iff.mp hm
    linarith

lemma randomRatioLoop_props (r : ℕ) : ∀ (fuel : ℕ) (st : RState) (f s t : ℚ),
    (∀ k, 0 ≤ st.stream k ∧ st.stream k < 1) →
    (randomRatioLoop r fuel st).1 = some (f, s, t) →
    0 ≤ f ∧ 0 ≤ s ∧ 0 ≤ t ∧ pyround (f + s + t) r = 1 := by
  intro fuel
  induction fuel with
  | zero =>
    intro st f s t H h
    simp [randomRatioLoop] at h
  | succ n ih =>
    intro st f s t H h
    simp only [randomRatioLoop] at h
    by_cases h1 : ratio_third r st < 0
    · rw [if_pos h1] at h
      exact ih ⟨st.stream, st.pos + 2⟩ f s t H h
    · rw [if_neg h1] at h
      by_cases h2 : pyround (ratio_first r st + ratio_second r st + ratio_third r st) r = 1
      · rw [if_pos h2] at h
        simp only [Option.some.injEq, Prod.mk.injEq] at h
        obtain ⟨hf, hs, ht⟩ := h
        subst hf
        subst hs
        subst ht
        have hd0 := H st.pos
        have hd1 := H (st.pos + 1)
        have hfn : 0 ≤ ratio_first r st := pyround_nonneg _ _ hd0.1
        have hf1 : ratio_first r st ≤ 1 := pyround_le_one _ _ hd0.2
        have hs2 : 0 ≤ ratio_second r st := by
          rw [ratio_second]
          exact pyround_nonneg _ _
            (add_nonneg hfn (mul_nonneg (by linarith) hd1.1))
        exact ⟨hfn, hs2, not_lt.mp h1, h2⟩
      · rw [if_neg h2] at h
        exact ih ⟨st.stream, st.pos + 2⟩ f s t H h

/-- Claim C3 (confirmed): every triple returned by random_ratio, for any
seed and any state whose stream draws lie in the unit interval, is a
3-element descending sequence of non-negative rationals whose sum,
rounded at the configured precision, is exactly 1. -/
theorem c3_theorem : ∀ (rounding : ℕ) (starting_seed : Option ℕ) (st : RState)
    (fuel : ℕ) (l : List ℚ),
    (∀ k, 0 ≤ st.stream k ∧ st.stream k < 1) →
    (random_ratio rounding starting_seed st fuel).1 = some l →
    List.Sorted (fun a b : ℚ => b ≤ a) l ∧ (∀ x ∈ l, 0 ≤ x)
      ∧ pyround l.sum rounding = 1 ∧ l.length = 3 := by
  intro r seed st fuel l H h
  have H1 : ∀ k, 0 ≤ (applySeed seed st).stream k ∧ (applySeed seed st).stream k < 1 := by
    cases seed with
    | none => exact H
    | some s =>
      by_cases hs : s = 0
      · simpa [applySeed, hs] using H
      · simpa [applySeed, hs] using seedStream_bounds s
  simp only [random_ratio] at h
  cases hr : (randomRatioLoop r fuel (applySeed seed st)).1 with
  | none => rw [hr] at h; simp at h
  | some x =>
    rw [hr] at h
    obtain ⟨f, s, t⟩ := x
    simp only [Option.map_some', Option.some.injEq] at h
    have props := randomRatioLoop_props r fuel (applySeed seed st) f s t H1 hr
    subst h
    have hperm : (sort_desc [f, s, t]).Perm [f, s, t] := List.perm_insertionSort _ _
    refine ⟨List.sorted_insertionSort _ _, ?_, ?_, ?_⟩
    · intro x hx
      have hx2 : x ∈ [f, s, t] := hperm.mem_iff.mp hx
      simp only [List.mem_cons, List.not_mem_nil, or_false] at hx2
      rcases hx2 with rfl | rfl | rfl
      · exact props.1
      · exact props.2.1
      · exact props.2.2.1
    · have hsum : (sort_desc [f, s, t]).sum = f + s + t := by
        rw [hperm.sum_eq]
        simp [add_assoc]
      rw [hsum]
      exact props.2.2.2
    · simpa using hperm.length_eq

/-- Concrete generator state used to witness claim C3. -/
def c3_state : RState := ⟨fun k => if k = 0 then 21/100 else 1/2, 0⟩

/-- Claim C3 witness: the theorem applied to a concrete state that
accepts at the first iteration and returns [0.6, 0.2, 0.2]. -/
theorem c3_witness :
    (∀ k, 0 ≤ c3_state.stream k ∧ c3_state.stream k < 1)
    ∧ (random_ratio 1 none c3_state 1).1 = some [3/5, 1/5, 1/5]
    ∧ (List.Sorted (fun a b : ℚ => b ≤ a) [3/5, 1/5, 1/5]
        ∧ (∀ x ∈ ([3/5, 1/5, 1/5] : List ℚ), 0 ≤ x)
        ∧ pyround (([3/5, 1/5, 1/5] : List ℚ)).sum 1 = 1
        ∧ ([3/5, 1/5, 1/5] : List ℚ).length = 3) := by
  have hB : ∀ k, 0 ≤ c3_state.stream k ∧ c3_state.stream k < 1 := by
    intro k
    by_cases hk : k = 0 <;> simp [c3_state, hk] <;> norm_num
  have hE : (random_ratio 1 none c3_state 1).1 = some [3/5, 1/5, 1/5] := by
    norm_num [random_ratio, randomRatioLoop, applySeed, ratio_first, ratio_second,
      ratio_third, c3_state, pyround, pyround_int, sort_desc, List.insertionSort,
      List.orderedInsert]
  exact ⟨hB, hE, c3_theorem 1 none c3_state 1 [3/5, 1/5, 1/5] hB hE⟩

/-- Claim C7 (corrected): for every non-zero seed, random_ratio reseeds
the shared source, so its result does not depend on the incoming
generator state: any two calls with the same seed and rounding return
the same triple.  The falsy seed 0 is excluded. -/
theorem c7_theorem : ∀ (rounding s : ℕ) (st st2 : RState) (fuel : ℕ), s ≠ 0 →
    (random_ratio rounding (some s) st fuel).1
      = (random_ratio rounding (some s) st2 fuel).1 := by
  intro r s st st2 fuel hs
  simp only [random_ratio, applySeed, if_neg hs]

/-- First concrete generator state for the claim C7 counterexample. -/
def c7_state_a : RState := ⟨fun k => if k = 0 then 21/100 else 1/2, 0⟩

/-- Second concrete generator state for the claim C7 counterexample. -/
def c7_state_b : RState := ⟨fun k => if k = 0 then 11/100 else 3/4, 0⟩

/-- Claim C7 counterexample: the seed 0 is falsy in Python, so
random_ratio with starting_seed 0 does not reseed; two calls with seed 0
from different generator states return different triples. -/
theorem c7_counterexample :
    (random_ratio 1 (some 0) c7_state_a 1).1 = some [3/5, 1/5, 1/5]
    ∧ (random_ratio 1 (some 0) c7_state_b 1).1 = some [4/5, 1/10, 1/10]
    ∧ ([3/5, 1/5, 1/5] : List ℚ) ≠ [4/5, 1/10, 1/10] := by
  refine ⟨?_, ?_, by norm_num⟩
  · norm_num [random_ratio, randomRatioLoop, applySeed, ratio_first, ratio_second,
      ratio_third, c7_state_a, pyround, pyround_int, sort_desc, List.insertionSort,
      List.orderedInsert]
  · norm_num [random_ratio, randomRatioLoop, applySeed, ratio_first, ratio_second,
      ratio_third, c7_state_b, pyround, pyround_int, sort_desc, List.insertionSort,
      List.orderedInsert]

/-- Claim C7 witness: the amended statement applied to the doctest seed
121412 and two distinct concrete generator states. -/
theorem c7_witness :
    (121412 : ℕ) ≠ 0
    ∧ (random_ratio 1 (some 121412) c7_state_a 1).1
        = (random_ratio 1 (some 121412) c7_state_b 1).1 :=
  ⟨by norm_num, c7_theorem 1 121412 c7_state_a c7_state_b 1 (by norm_num)⟩

/-- Embedding of Python 2 random.choice index selection:
int(random() * len(seq)). -/
def choiceIndex (d : ℚ) (n : ℕ) : ℕ := (Int.floor (d * (n : ℚ))).toNat

/-- Embedding of the defaultdict(int) accumulation
drink_ingredients[name] += i * amount: update an existing entry in place
or append a fresh one. -/
def addToDrink : List (String × ℚ) → String → ℚ → List (String × ℚ)
  | [], nm, v => [(nm, v)]
  | (m, w) :: rest, nm, v =>
    if m = nm then (m, w + v) :: rest else (m, w) :: addToDrink rest nm v

/-- Embedding of random_drink (blueblazer.py lines 146-173): generate a
ratio with the seed, reseed again with the same truthy seed, then for
each ratio slot draw one value, pick the indexed ingredient and add its
share of the amount.  An ingredient is a (name, abv) pair; the abv is
carried but unused here, matching the source which only reads the name.
The file-loading branch for an empty ingredients list performs I/O and
is left out of the model: the empty list returns none. -/
def random_drink (amount : ℚ) (ingredients : List (String × ℚ)) (seed : Option ℕ)
    (st : RState) (fuel : ℕ) : Option (List (String × ℚ)) × RState :=
  let r1 := random_ratio 1 seed st fuel
  let st1 := applySeed seed r1.2
  match r1.1 with
  | none => (none, st1)
  | some ratio =>
    if ingredients.isEmpty then (none, st1) else
    let step := fun (acc : List (String × ℚ) × RState) (i : ℚ) =>
      let d := acc.2.stream acc.2.pos
      let nm := (ingredients.getD (choiceIndex d ingredients.length) (("Water"), 0)).1
      (addToDrink acc.1 nm (i * amount), ⟨acc.2.stream, acc.2.pos + 1⟩)
    let res := ratio.foldl step ([], st1)
    (some res.1, res.2)

/-- The two-ingredient list of the random_drink doctest. -/
def rum_sunny : List (String × ℚ) := [(("Rum"), 2/5), (("Sunny D"), 0)]

/-- Claim C8 (corrected): random_drink with a non-zero seed reseeds
before ratio generation and again before the per-slot choices, so its
result does not depend on the incoming generator state; and with the
doctest seed 12345, the doctest ingredients and amount 70 it returns the
documented split of 56 for Rum and 14 for Sunny D.  The falsy seed 0 is
excluded. -/
theorem c8_theorem :
    (∀ (amount : ℚ) (ings : List (String × ℚ)) (s : ℕ) (st st2 : RState) (fuel : ℕ),
      s ≠ 0 →
      (random_drink amount ings (some s) st fuel).1
        = (random_drink amount ings (some s) st2 fuel).1)
    ∧ ∀ (st : RState) (fuel : ℕ),
        (random_drink 70 rum_sunny (some 12345) st (fuel + 1)).1
          = some [(("Rum"), 56), (("Sunny D"), 14)] := by
  constructor
  · intro amount ings s st st2 fuel hs
    simp only [random_drink, random_ratio, applySeed, if_neg hs]
  · intro st fuel
    simp only [random_drink, random_ratio, applySeed]
    norm_num [randomRatioLoop, ratio_first, ratio_second, ratio_third, seedStream,
      pyround, pyround_int, sort_desc, List.insertionSort, List.orderedInsert,
      rum_sunny, choiceIndex, addToDrink]

/-- First concrete generator state for the claim C8 counterexample. -/
def c8_state_a : RState := ⟨fun k => if k = 0 then 21/100 else 2/5, 0⟩

/-- Second concrete generator state for the claim C8 counterexample. -/
def c8_state_b : RState := ⟨fun k => if k = 0 then 11/100 else 3/4, 0⟩

/-- Claim C8 counterexample: the seed 0 is falsy in Python, so neither
reseed happens; two random_drink calls with seed 0 from different
generator states return different drinks. -/
theorem c8_counterexample :
    (random_drink 70 rum_sunny (some 0) c8_state_a 1).1 = some [(("Rum"), 70)]
    ∧ (random_drink 70 rum_sunny (some 0) c8_state_b 1).1 = some [(("Sunny D"), 70)]
    ∧ (some [(("Rum"), (70 : ℚ))] : Option (List (String × ℚ)))
        ≠ some [(("Sunny D"), (70 : ℚ))] := by
  refine ⟨?_, ?_, by simp⟩
  · norm_num [random_drink, random_ratio, randomRatioLoop, applySeed, ratio_first,
      ratio_second, ratio_third, c8_state_a, pyround, pyround_int, sort_desc,
      List.insertionSort, List.orderedInsert, rum_sunny, choiceIndex, addToDrink]
  · norm_num [random_drink, random_ratio, randomRatioLoop, applySeed, ratio_first,
      ratio_second, ratio_third, c8_state_b, pyround, pyround_int, sort_desc,
      List.insertionSort, List.orderedInsert, rum_sunny, choiceIndex, addToDrink]

/-- Claim C8 witness: the determinism part applied to the doctest seed
12345 and two distinct concrete generator states. -/
theorem c8_witness :
    (12345 : ℕ) ≠ 0
    ∧ (random_drink 70 rum_sunny (some 12345) c8_state_a 1).1
        = (random_drink 70 rum_sunny (some 12345) c8_state_b 1).1 :=
  ⟨by norm_num, c8_theorem.1 70 rum_sunny 12345 c8_state_a c8_state_b 1 (by norm_num)⟩

/-- Both-ends version of Python str.strip: drop the characters satisfying
p from the front and from the back. -/
def dropEndsWhile (p : Char → Bool) (l : List Char) : List Char :=
  ((l.dropWhile p).reverse.dropWhile p).reverse

/-- Python str.strip() with no argument: strip whitespace at both ends. -/
def pystrip (s : String) : String := String.mk (dropEndsWhile Char.isWhitespace s.data)

/-- Python strip of the percent sign at both ends. -/
def pystrip_pct (s : String) : String :=
  String.mk (dropEndsWhile (fun c => c == '%') s.data)

/-- Value of a decimal digit character, and 10 for a non-digit. -/
def digitVal (c : Char) : ℕ :=
  if c = '0' then 0 else if c = '1' then 1 else if c = '2' then 2 else if c = '3' then 3
  else if c = '4' then 4 else if c = '5' then 5 else if c = '6' then 6 else if c = '7' then 7
  else if c = '8' then 8 else if c = '9' then 9 else 10

/-- Accumulate a decimal digit string into a natural number; none as soon
as a non-digit appears. -/
def digitsToNat : List Char → Option ℕ → Option ℕ
  | _, none => none
  | [], some n => some n
  | c :: rest, some n =>
    if digitVal c ≤ 9 then digitsToNat rest (some (10 * n + digitVal c)) else none

/-- Split a character list at the first decimal point, if any. -/
def splitDot : List Char → List Char × Option (List Char)
  | [] => ([], none)
  | c :: rest =>
    if c = '.' then ([], some rest)
    else ((c :: (splitDot rest).1), (splitDot rest).2)

/-- Plain decimal numerals accepted by Python float() on the inputs this
module feeds it: digits with an optional single decimal point; anything
else is a ValueError, embedded as none. -/
def parseUnsigned (l : List Char) : Option ℚ :=
  match splitDot l with
  | (ip, none) =>
    match digitsToNat ip (some 0) with
    | some a => if ip = [] then none else some ((a : ℚ))
    | none => none
  | (ip, some fp) =>
    if ip = [] ∧ fp = [] then none
    else
      match digitsToNat ip (some 0), digitsToNat fp (some 0) with
      | some a, some b => some ((a : ℚ) + (b : ℚ) / 10 ^ fp.length)
      | _, _ => none

/-- Python float() on a string, restricted to plain signed decimal
numerals. -/
def parseFloat (s : String) : Option ℚ :=
  match s.data with
  | [] => none
  | c :: rest =>
    if c = '-' then Option.map (fun q : ℚ => -q) (parseUnsigned rest)
    else if c = '+' then parseUnsigned rest
    else parseUnsigned (c :: rest)

/-- A Python value sitting in the abv field of an ingredient entry.
vstr is an ordinary string from the configuration document; vnumstr is
the string str(x) produced from a number x by the proof branch, a clean
decimal numeral with no whitespace or percent sign, for which the
str then float round trip is exact, so the model carries the numeric
value; vnum is a bare non-string number. -/
inductive PyVal where
  | vstr (s : String)
  | vnumstr (q : ℚ)
  | vnum (q : ℚ)

/-- The uncaught Python exceptions the ingredient loop can raise. -/
inductive PyErr where
  | keyError
  | attributeError
  | valueError
deriving DecidableEq

/-- One parsed configuration entry before normalization: a name, an
optional abv value and an optional numeric proof value. -/
structure RawEntry where
  name : String
  abv : Option PyVal
  proof : Option ℚ

/-- Embedding of the abv clean-up (blueblazer.py lines 104-109):
abv = float(ingredient.abv.strip().strip(percent)); values above 0.99
are scaled by 0.01.  Calling .strip() on a non-string value raises an
uncaught AttributeError; an unparsable string raises ValueError. -/
def normalize_abv (v : PyVal) : Except PyErr ℚ :=
  match v with
  | PyVal.vnum _ => Except.error PyErr.attributeError
  | PyVal.vnumstr q => Except.ok (if 99/100 < q then q * (1/100) else q)
  | PyVal.vstr s =>
    match parseFloat (pystrip_pct (pystrip s)) with
    | none => Except.error PyErr.valueError
    | some a => Except.ok (if 99/100 < a then a * (1/100) else a)

/-- Embedding of one iteration of the read_ingredients loop
(blueblazer.py lines 97-111): a proof value, when present, is popped and
replaced by the string str(proof / 2.0); a missing abv raises KeyError;
then the abv is cleaned up. -/
def read_ingredient (e : RawEntry) : Except PyErr (String × ℚ) :=
  let v : Option PyVal :=
    match e.proof with
    | some p => some (PyVal.vnumstr (p / 2))
    | none => e.abv
  match v with
  | none => Except.error PyErr.keyError
  | some v2 =>
    match normalize_abv v2 with
    | Except.error err => Except.error err
    | Except.ok a => Except.ok (e.name, a)

/-- Embedding of the read_ingredients normalization loop over the parsed
entry list; the first failing entry aborts the whole call, as the Python
loop raises there. -/
def read_ingredients : List RawEntry → Except PyErr (List (String × ℚ))
  | [] => Except.ok []
  | e :: rest =>
    match read_ingredient e, read_ingredients rest with
    | Except.ok pr, Except.ok prs => Except.ok (pr :: prs)
    | Except.error err, _ => Except.error err
    | Except.ok _, Except.error err => Except.error err

/-- Claim C4 (corrected): an entry with proof 30 normalizes to abv 0.15
and proof 0.4 to 0.2, both through the string str(proof / 2); the
percentage string 40 percent normalizes to 0.4; the STRING 0.4 is left
unchanged since it is at most 0.99; but a bare non-string numeric abv is
not left unchanged: the clean-up calls .strip() on it and raises an
uncaught AttributeError for every such number. -/
theorem c4_theorem :
    read_ingredients
        [⟨("Vodka"), some (PyVal.vstr ("40%")), none⟩,
         ⟨("Schnapps"), none, some 30⟩,
         ⟨("SpicedRum"), none, some (2/5)⟩]
      = Except.ok [(("Vodka"), (2 : ℚ)/5), (("Schnapps"), 3/20), (("SpicedRum"), 1/5)]
    ∧ read_ingredient ⟨("Dilute"), some (PyVal.vstr ("0.4")), none⟩
        = Except.ok (("Dilute"), (2 : ℚ)/5)
    ∧ ∀ (nm : String) (q : ℚ),
        read_ingredient ⟨nm, some (PyVal.vnum q), none⟩
          = Except.error PyErr.attributeError := by
  refine ⟨?_, ?_, fun nm q => rfl⟩
  · norm_num +decide [read_ingredients, read_ingredient, normalize_abv, parseFloat,
      parseUnsigned, digitsToNat, splitDot, digitVal, pystrip, pystrip_pct,
      dropEndsWhile]
  · norm_num +decide [read_ingredient, normalize_abv, parseFloat,
      parseUnsigned, digitsToNat, splitDot, digitVal, pystrip, pystrip_pct,
      dropEndsWhile]

/-- Claim C4 counterexample: an entry whose abv is the bare number 0.4 is
not left unchanged at 0.4; the clean-up raises AttributeError. -/
theorem c4_counterexample :
    read_ingredient ⟨("Rum"), some (PyVal.vnum (2/5)), none⟩
      = Except.error PyErr.attributeError
    ∧ (Except.error PyErr.attributeError : Except PyErr (String × ℚ))
        ≠ Except.ok (("Rum"), (2 : ℚ)/5) :=
  ⟨rfl, fun h => Except.noConfusion h⟩

/-- The slice of the file system read_ingredients touches: whether the
configuration directory exists, and the contents of the ingredients file
inside it, none when the file is missing. -/
structure FSState where
  hasDir : Bool
  file : Option String
deriving DecidableEq

/-- How the file-opening prologue of read_ingredients can end. -/
inductive ReadOutcome where
  | gotContents (s : String)
  | raisedGuidance (msg : String)
  | raisedOSError
deriving DecidableEq

/-- The template the except branch writes (blueblazer.py lines 85-91),
newline joined. -/
def sample_ingredients : String :=
  "---\ningredients:\n    - name: Vodka\n    abv: 40%\n    - name: Water\n    proof: 0"

/-- The message of the exception raised after writing the template,
formatted with the file name. -/
def guidance_message (filename : String) : String :=
  "Could not read your ingredients file. Created a blank one at " ++ filename

/-- Embedding of the file-opening prologue of read_ingredients
(blueblazer.py lines 76-95) as a transition on the file system slice:
reading an existing file returns its contents; on IOError the code calls
os.makedirs, which in Python 2 raises an uncaught OSError when the
directory already exists, and otherwise writes the template file and
raises the guidance exception. -/
def read_ingredients_open (fs : FSState) (filename : String) : FSState × ReadOutcome :=
  match fs.file with
  | some c => (fs, ReadOutcome.gotContents c)
  | none =>
    if fs.hasDir then (fs, ReadOutcome.raisedOSError)
    else (⟨true, some sample_ingredients⟩,
      ReadOutcome.raisedGuidance (guidance_message filename))

/-- Claim C9 (corrected): when the ingredients file is missing AND the
configuration directory does not exist yet, read_ingredients creates the
template file at the expected path and raises the caller-visible
exception naming that path; when the directory already exists, however,
os.makedirs itself raises an uncaught OSError and no template is
written. -/
theorem c9_theorem : ∀ (fs : FSState) (fn : String),
    fs.file = none → fs.hasDir = false →
    read_ingredients_open fs fn
      = (⟨true, some sample_ingredients⟩,
          ReadOutcome.raisedGuidance (guidance_message fn)) := by
  intro fs fn hfile hdir
  obtain ⟨hd, fl⟩ := fs
  simp only at hfile hdir
  subst hfile
  subst hdir
  rfl

/-- Claim C9 counterexample: with the directory present and the file
missing, the call neither returns nor raises the guidance error; it
crashes with the bare OSError of os.makedirs and writes no template. -/
theorem c9_counterexample :
    read_ingredients_open ⟨true, none⟩ ("ingredients.yaml")
      = (⟨true, none⟩, ReadOutcome.raisedOSError)
    ∧ (⟨true, none⟩ : FSState).file = none
    ∧ ReadOutcome.raisedOSError
        ≠ ReadOutcome.raisedGuidance (guidance_message ("ingredients.yaml")) :=
  ⟨rfl, rfl, fun h => ReadOutcome.noConfusion h⟩

/-- Claim C9 witness: the amended statement applied to the fresh-user
state with no directory and no file. -/
theorem c9_witness :
    (⟨false, none⟩ : FSState).file = none
    ∧ (⟨false, none⟩ : FSState).hasDir = false
    ∧ read_ingredients_open ⟨false, none⟩ ("ingredients.yaml")
        = (⟨true, some sample_ingredients⟩,
            ReadOutcome.raisedGuidance (guidance_message ("ingredients.yaml"))) :=
  ⟨rfl, rfl, c9_theorem ⟨false, none⟩ ("ingredients.yaml") rfl rfl⟩
